import Mathlib

/-!
Shallow embedding of `fastq_viewer.py` (jeffkaufman/sequence_tools).

Strings are modelled as `List Char`; Python's implicit output (`print`) is
modelled by returning the list of printed lines; `die`/`raise` are modelled
by an explicit `Err` value.  The external `ansiwrap` library functions used
by the source (`ansilen`, `ansi_terminate_lines`) are modelled from their
documented behaviour and from the spec's description of AnsiText/LineWrapper.
-/

namespace FastqViewer

/-- A character counts as sequence content when it is an uppercase ASCII
letter, matching the regex `[^A-Z]+` used by `ansistrip` in the source
(`Char.isUpper` is exactly `A`-`Z`). -/
def isContent (c : Char) : Bool := c.isUpper

/-- Source `ansistrip` (fastq_viewer.py lines 20-27): remove every
non-uppercase-letter character. -/
def ansistrip (line : List Char) : List Char := line.filter isContent

/-- A parameter character of an ANSI CSI escape sequence: a digit or `;`
(the `(?:\d|;)*` part of ansiwrap's `ANSIRE` regex). -/
def isAnsiParam (c : Char) : Bool := c.isDigit || c == ';'

/-- A final letter of an ANSI CSI escape sequence (the `[a-zA-Z]` part of
ansiwrap's `ANSIRE` regex). -/
def isAnsiLetter (c : Char) : Bool := c.isUpper || c.isLower

/-- Modelled from the spec: the external `ansiwrap` library's escape-sequence
regex `ESC [ (digit|;)* letter`.  Given the characters following `ESC [`,
return the parameter characters, the final letter and the remainder when the
pattern matches. -/
def ansiSplit (cs : List Char) : Option (List Char × Char × List Char) :=
  match cs.dropWhile isAnsiParam with
  | c :: rest => if isAnsiLetter c then some (cs.takeWhile isAnsiParam, c, rest) else none
  | [] => none

/-- Modelled from the spec: the external `ansiwrap.ansilen` deletes every
match of its escape regex and measures what is left.  Fuel-indexed scanner;
with fuel at least the list length it scans the whole input (each recursive
call consumes at least one character). -/
def stripAnsiAux : Nat → List Char → List Char
  | 0, l => l
  | _ + 1, [] => []
  | fuel + 1, c :: cs =>
    if c = '\x1b' then
      match cs with
      | '[' :: rest =>
        match ansiSplit rest with
        | some (_, _, rest') => stripAnsiAux fuel rest'
        | none => c :: stripAnsiAux fuel cs
      | _ => c :: stripAnsiAux fuel cs
    else c :: stripAnsiAux fuel cs

/-- Text with every ANSI escape-sequence match removed. -/
def stripAnsiCodes (l : List Char) : List Char := stripAnsiAux l.length l

/-- Modelled from the spec: `ansiwrap.ansilen`, the visible length of a line
once ANSI escape sequences are discounted. -/
def ansilen (l : List Char) : Nat := (stripAnsiCodes l).length

/-- Source `colorless_len` (lines 12-18): compare `ansiwrap.ansilen` with the
length after `ansistrip`; `die` (here: `none`) when they disagree, otherwise
return the agreed length. -/
def colorless_len (line : List Char) : Option Nat :=
  let l1 := ansilen line
  let l2 := (ansistrip line).length
  if l1 ≠ l2 then none else some l1

/-- Source `COLOR_BUCKETS` (lines 29-38). -/
def COLOR_BUCKETS : List (List Char) :=
  [ "\x1b[1;30m".toList,  -- black, bold so it is not invisible
    "\x1b[35m".toList,    -- magenta
    "\x1b[31m".toList,    -- red
    "\x1b[33m".toList,    -- yellow
    "\x1b[37m".toList,    -- white
    "\x1b[32m".toList,    -- green
    "\x1b[34m".toList,    -- blue
    "\x1b[36m".toList ]   -- cyan

/-- Source `COLOR_END` (line 39). -/
def COLOR_END : List Char := "\x1b[0m".toList

/-- The errors the source raises via `die` or `raise Exception`. -/
inductive Err where
  /-- `bad value at line N`: a non-`@` line while awaiting a header. -/
  | badValue (line : List Char)
  /-- `Unable to determine length`: `ansilen` and `ansistrip` disagree. -/
  | lenDisagree (l1 l2 : Nat)
  /-- `quality longer than sequence (q > s)`. -/
  | lengthMismatch (qualityLen sequenceLen : Nat)
  /-- the renderer's `Exception('%s vs %s')` on unequal visible lengths. -/
  | ansilenMismatch (seqLen qualLen : Nat)
  /-- `Value %r out of range`: a quality character outside `['!','~']`. -/
  | qualityRange (c : Char)
  /-- Python `ZeroDivisionError` when `ord(max_quality) - ord('!') = 0`. -/
  | divByZero
  /-- the `--max-quality must be between "!" and "~"` startup rejection. -/
  | configError
deriving DecidableEq, Repr

/-- Source lines 48-50: the quality bucket.  Python's
`min(len(COLOR_BUCKETS)-1, int(len(COLOR_BUCKETS)*(ord(c)-ord('!'))/(ord(m)-ord('!'))))`.
For the numerators and denominators that can occur here (at most `8*93` over
at most `93`) the float division followed by `int` truncation agrees exactly
with natural-number floor division. -/
def quality_bucket (c max_quality : Char) : Nat :=
  min (COLOR_BUCKETS.length - 1)
    ((COLOR_BUCKETS.length * (c.toNat - 33)) / (max_quality.toNat - 33))

/-- One iteration of the loop in source `colorize_quality` (lines 44-52):
range-check the character, then compute its bucket (Python raises
`ZeroDivisionError` when `ord(max_quality) = ord('!')`) and wrap it in the
bucket's start marker and the shared end marker.  Faithful for
`max_quality ≥ '!'`, which the startup validation guarantees. -/
def colorize_char (c : Char) (max_quality : Char) : Except Err (List Char) :=
  if c < '!' ∨ c > '~' then .error (.qualityRange c)
  else if max_quality.toNat = 33 then .error .divByZero
  else .ok ((COLOR_BUCKETS.getD (quality_bucket c max_quality) []) ++ [c] ++ COLOR_END)

/-- Source `colorize_quality` (lines 41-54): colorize each character in order,
concatenating the pieces; the first failure aborts. -/
def colorize_quality (line : List Char) (max_quality : Char) : Except Err (List Char) :=
  match line with
  | [] => .ok []
  | c :: cs =>
    match colorize_char c max_quality with
    | .error e => .error e
    | .ok s =>
      match colorize_quality cs max_quality with
      | .error e => .error e
      | .ok rest => .ok (s ++ rest)

/-- The loop of source `wrap` (lines 99-109): append characters to the current
segment, closing it whenever its (raw or ANSI-stripped) length reaches
`columns`; a nonempty leftover becomes the final segment. -/
def wrapLoop (strip_ansi : Bool) (columns : Nat) : List Char → List Char → List (List Char)
  | acc, [] => if acc = [] then [] else [acc]
  | acc, c :: cs =>
    let acc' := acc ++ [c]
    let len := if strip_ansi then (ansistrip acc').length else acc'.length
    if len = columns then acc' :: wrapLoop strip_ansi columns [] cs
    else wrapLoop strip_ansi columns acc' cs

/-- Modelled from the spec: the colour-state tracking inside the external
`ansiwrap.ansi_terminate_lines`.  Scan a line for SGR escape codes: a
`...m` code with empty or `0` parameters resets the open colour, any other
`...m` code becomes the open colour; other codes leave it unchanged. -/
def ansiStateAux : Nat → Option (List Char) → List Char → Option (List Char)
  | 0, st, _ => st
  | _ + 1, st, [] => st
  | fuel + 1, st, c :: cs =>
    if c = '\x1b' then
      match cs with
      | '[' :: rest =>
        match ansiSplit rest with
        | some (params, letter, rest') =>
          let st' :=
            if letter = 'm' then
              if params = [] ∨ params = ['0'] then none
              else some ('\x1b' :: '[' :: (params ++ ['m']))
            else st
          ansiStateAux fuel st' rest'
        | none => ansiStateAux fuel st cs
      | _ => ansiStateAux fuel st cs
    else ansiStateAux fuel st cs

/-- The colour left open at the end of a line, given the colour open at its
start. -/
def ansiState (st : Option (List Char)) (l : List Char) : Option (List Char) :=
  ansiStateAux l.length st l

/-- Modelled from the spec: the external `ansiwrap.ansi_terminate_lines`, as
described in spec section 4.3 — reopen the carried-over colour at the start of
each line and emit a closing marker at the end of any line that leaves a
colour open.  Lines free of escape codes pass through unchanged. -/
def ansi_terminate_lines (st : Option (List Char)) : List (List Char) → List (List Char)
  | [] => []
  | l :: ls =>
    let pre := match st with | some code => code ++ l | none => l
    let st' := ansiState st l
    let l' := match st' with | some _ => pre ++ COLOR_END | none => pre
    l' :: ansi_terminate_lines st' ls

/-- Source `wrap` (lines 92-114): character-at-a-time wrapping; in
`strip_ansi` mode the segments are passed through `ansi_terminate_lines`. -/
def wrap (text : List Char) (strip_ansi : Bool) (columns : Nat) : List (List Char) :=
  if strip_ansi then ansi_terminate_lines none (wrapLoop strip_ansi columns [] text)
  else wrapLoop strip_ansi columns [] text

/-- The configuration the core consumes (spec section 6), i.e. the fields of
`args` that `print_fastq` and the state machine read. -/
structure Args where
  columns : Nat
  colorize_quality : Bool
  skip_lines : Bool
  max_quality : Char
deriving DecidableEq, Repr

/-- The loop of source `print_fastq` (lines 119-135) over the zipped wrapped
segments.  Returns the printed lines together with the error, if any, that
aborted the loop; note the source prints the offending pair before raising on
an `ansilen` mismatch, and prints the sequence segment before a colorization
failure. -/
def render_pairs (args : Args) : List (List Char × List Char) → List (List Char) × Option Err
  | [] => ([], none)
  | (s, q) :: rest =>
    if ansilen s ≠ ansilen q then
      ([s, q], some (.ansilenMismatch (ansilen s) (ansilen q)))
    else
      match (if args.colorize_quality then colorize_quality q args.max_quality else .ok q) with
      | .error e => ([s], some e)
      | .ok q' =>
        let (tail, err) := render_pairs args rest
        ((s :: q' :: (if args.skip_lines then [[]] else [])) ++ tail, err)

/-- Source `print_fastq` (lines 116-136): print the header, then the zipped
wrapped sequence/quality segments, then the separator.  The separator is only
reached when no exception aborted the pair loop. -/
def print_fastq (args : Args) (at_line sequence plus_line quality : List Char) :
    List (List Char) × Option Err :=
  let (body, err) :=
    render_pairs args
      ((wrap sequence true args.columns).zip (wrap quality false args.columns))
  match err with
  | some e => (at_line :: body, some e)
  | none => (at_line :: body ++ [plus_line], none)

/-- A complete FASTQ record, i.e. the four arguments the assembler hands to
`print_fastq` (spec section 3). -/
structure FastqRecord where
  header : List Char
  sequence : List Char
  separator : List Char
  quality : List Char
deriving DecidableEq, Repr

/-- The mutable state of the loop in source `start` (lines 139-144): the
stored header and separator (both nonempty when present, so `Option` is
faithful to Python truthiness), the buffered sequence and quality lines, and
the two running length counters. -/
structure AsmState where
  at_line : Option (List Char)
  plus_line : Option (List Char)
  sequence : List (List Char)
  quality : List (List Char)
  quality_len : Nat
  sequence_len : Nat
deriving DecidableEq, Repr

/-- The state at the start of the loop and after each emitted record. -/
def initState : AsmState := ⟨none, none, [], [], 0, 0⟩

deriving instance DecidableEq for Except

/-- What one loop iteration of source `start` produces: the lines printed, the
record handed to `print_fastq` (if any), and either the next state or the
error that aborted processing. -/
structure StepResult where
  output : List (List Char)
  emitted : Option FastqRecord
  result : Except Err AsmState
deriving DecidableEq, Repr

/-- The body of the loop in source `start` (lines 179-212), applied to one
already-stripped input line. -/
def step (args : Args) (st : AsmState) (line : List Char) : StepResult :=
  match st.at_line with
  | none =>
    if line.head? = some '@' then ⟨[], none, .ok { st with at_line := some line }⟩
    else ⟨[], none, .error (.badValue line)⟩
  | some h =>
    match st.plus_line with
    | none =>
      if line.head? = some '+' then ⟨[], none, .ok { st with plus_line := some line }⟩
      else
        match colorless_len line with
        | none => ⟨[], none, .error (.lenDisagree (ansilen line) (ansistrip line).length)⟩
        | some n =>
          ⟨[], none, .ok { st with sequence := st.sequence ++ [line],
                                   sequence_len := st.sequence_len + n }⟩
    | some p =>
      let quality := st.quality ++ [line]
      let quality_len := st.quality_len + line.length
      if quality_len = st.sequence_len then
        let r : FastqRecord := ⟨h, st.sequence.flatten, p, quality.flatten⟩
        let pr := print_fastq args r.header r.sequence r.separator r.quality
        ⟨pr.1, some r, match pr.2 with | some e => .error e | none => .ok initState⟩
      else if quality_len > st.sequence_len then
        ⟨[], none, .error (.lengthMismatch quality_len st.sequence_len)⟩
      else
        ⟨[], none, .ok { st with quality := quality, quality_len := quality_len }⟩

/-- Python `line.strip()` (line 180): remove leading and trailing whitespace. -/
def pystrip (l : List Char) : List Char :=
  ((l.dropWhile Char.isWhitespace).reverse.dropWhile Char.isWhitespace).reverse

/-- The outcome of feeding a whole stream of lines to the loop of `start`:
every line printed (in order), every record handed to `print_fastq`, and the
error that stopped processing, if any. -/
structure RunResult where
  output : List (List Char)
  records : List FastqRecord
  error : Option Err
deriving DecidableEq, Repr

/-- The loop of source `start` (lines 179-212) over a list of raw input
lines: strip each line, feed it to `step`, stop at the first error. -/
def runLines (args : Args) : AsmState → List (List Char) → RunResult
  | _, [] => ⟨[], [], none⟩
  | st, l :: ls =>
    let s := step args st (pystrip l)
    match s.result with
    | .error e => ⟨s.output, s.emitted.toList, some e⟩
    | .ok st' =>
      let rest := runLines args st' ls
      ⟨s.output ++ rest.output, s.emitted.toList ++ rest.records, rest.error⟩

/-- Python string `<` comparison (lexicographic on characters), as used by the
`--max-quality` validation on one-character strings. -/
def pystr_lt : List Char → List Char → Bool
  | [], [] => false
  | [], _ :: _ => true
  | _ :: _, [] => false
  | a :: as, b :: bs => if a < b then true else if b < a then false else pystr_lt as bs

/-- The startup validation of source `start` (lines 170-174): `max_quality`
is rejected exactly when it is not a single character or lies outside
`['!','~']` (string comparison). -/
def validate_max_quality (mq : List Char) : Bool :=
  !(decide (mq.length ≠ 1) || pystr_lt mq ['!'] || pystr_lt ['~'] mq)

/-- Source `start` (lines 138-212), from the point where the configuration is
known: validate `--max-quality`, then run the line loop. -/
def start (max_quality : List Char) (columns : Nat) (colorize skip : Bool)
    (lines : List (List Char)) : RunResult :=
  if validate_max_quality max_quality then
    runLines ⟨columns, colorize, skip, max_quality.headD 'D'⟩ initState lines
  else ⟨[], [], some .configError⟩

/-! ## Helper lemmas -/

/-- The raw-count wrapping loop only regroups its input: flattening the
produced segments restores the pending segment followed by the unread text. -/
theorem wrapLoop_raw_flatten (w : Nat) :
    ∀ (text acc : List Char), (wrapLoop false w acc text).flatten = acc ++ text := by
  intro text
  induction text with
  | nil =>
    intro acc
    by_cases h : acc = [] <;> simp [wrapLoop, h]
  | cons c cs ih =>
    intro acc
    by_cases h : acc.length + 1 = w <;>
      simp [wrapLoop, h, ih]

/-- When `colorless_len` succeeds, the returned count is the number of
content (uppercase) characters of the line. -/
theorem colorless_len_some {line : List Char} {n : Nat}
    (h : colorless_len line = some n) : n = (ansistrip line).length := by
  by_cases hne : ansilen line ≠ (ansistrip line).length
  · simp [colorless_len, hne] at h
  · push_neg at hne
    simp [colorless_len, hne] at h
    omega

/-! ## Claims -/

/-- C5: for every string and every positive width, concatenating in order all
segments returned by `wrap` in raw count mode reproduces the input exactly. -/
theorem C5_wrap_raw_roundtrip (text : List Char) (w : Nat) (hw : 0 < w) :
    (wrap text false w).flatten = text := by
  simpa [wrap] using wrapLoop_raw_flatten w text []

/-- Witness for C5 at a concrete input. -/
theorem C5_wrap_raw_roundtrip_witness :
    (wrap "HELLO".toList false 2).flatten = "HELLO".toList :=
  C5_wrap_raw_roundtrip "HELLO".toList 2 (by decide)

/-- C4 counterexample: a record the assembler really emits (its trailing ANSI
reset survives `colorless_len`) whose wrapped sequence has two segments while
the wrapped quality has one; rendering completes without any error, silently
dropping the extra segment, instead of aborting on the segment-count
mismatch. -/
theorem C4_count_mismatch_not_detected :
    (wrap ['A', '\x1b', '[', '0', 'm'] true 1).length = 2 ∧
    (wrap ['!'] false 1).length = 1 ∧
    runLines ⟨1, false, false, 'D'⟩ initState
        [['@', 'r', '1'], ['A', '\x1b', '[', '0', 'm'], ['+'], ['!']] =
      ⟨[['@', 'r', '1'], ['A'], ['!'], ['+']],
       [⟨['@', 'r', '1'], ['A', '\x1b', '[', '0', 'm'], ['+'], ['!']⟩], none⟩ := by
  decide

/-- C4 amended: the renderer pairs segments positionally only up to the
shorter list (`zip`); for each zipped pair an unequal visible length aborts
rendering with an error reporting both observed lengths (after printing the
offending pair). -/
theorem C4_pair_length_check (args : Args) (s q : List Char)
    (rest : List (List Char × List Char)) (hne : ansilen s ≠ ansilen q) :
    render_pairs args ((s, q) :: rest) =
      ([s, q], some (.ansilenMismatch (ansilen s) (ansilen q))) := by
  simp [render_pairs, hne]

/-- Witness for the amended C4 at a concrete mismatched pair. -/
theorem C4_pair_length_check_witness :
    render_pairs ⟨4, false, false, 'D'⟩ [("AB".toList, ['!'])] =
      (["AB".toList, ['!']],
       some (.ansilenMismatch (ansilen "AB".toList) (ansilen ['!']))) :=
  C4_pair_length_check ⟨4, false, false, 'D'⟩ "AB".toList ['!'] [] (by decide)

/-- C3 counterexample: `--max-quality '!'` passes the startup validation, and
a colorizing run over well-formed input is not rejected at startup; it prints
the header and sequence segment of the first record and then fails with a
division-by-zero error inside colorization. -/
theorem C3_bang_not_rejected :
    validate_max_quality ['!'] = true ∧
    start ['!'] 4 true false ["@r1".toList, "ACGT".toList, "+".toList, "!!!!".toList] =
      ⟨["@r1".toList, "ACGT".toList],
       [⟨"@r1".toList, "ACGT".toList, "+".toList, "!!!!".toList⟩],
       some .divByZero⟩ := by
  decide

/-- C3 amended: the startup validation accepts `maxQualityChar = '!'` (it
only rejects values outside `['!','~']` or of length other than one); there
is no division-by-zero guard, and colorizing any quality text that starts
with an in-range character then fails with Python's `ZeroDivisionError` at
colorization time. -/
theorem C3_bang_divide_by_zero (c : Char) (rest : List Char)
    (h1 : '!' ≤ c) (h2 : c ≤ '~') :
    validate_max_quality ['!'] = true ∧
    colorize_quality (c :: rest) '!' = .error .divByZero := by
  refine ⟨by decide, ?_⟩
  have hguard : ¬(c < '!' ∨ c > '~') := by
    push_neg
    exact ⟨h1, h2⟩
  simp [colorize_quality, colorize_char, hguard]

/-- Witness for the amended C3 at a concrete character. -/
theorem C3_bang_divide_by_zero_witness :
    validate_max_quality ['!'] = true ∧
    colorize_quality ['A'] '!' = .error .divByZero :=
  C3_bang_divide_by_zero 'A' [] (by decide) (by decide)

/-- C9 counterexample: the source strips leading whitespace as well
(`line.strip()`), so a whitespace-prefixed header line is accepted in the
header-awaiting state and processing continues without any structural
error. -/
theorem C9_leading_whitespace_header_accepted :
    runLines ⟨4, false, false, 'D'⟩ initState [" @r1".toList] = ⟨[], [], none⟩ := by
  decide

/-- C9 amended: each raw line has both leading and trailing whitespace
removed before it is fed to the state machine; consequently a line of
whitespace followed by `@...` is accepted as a header in the header-awaiting
state. -/
theorem C9_strip_both_sides (l : List Char) :
    pystrip (' ' :: l) = pystrip l ∧
    ∀ (args : Args) (st : AsmState), st.at_line = none →
      (pystrip l).head? = some '@' →
      runLines args st [' ' :: l] = ⟨[], [], none⟩ := by
  have hdrop : pystrip (' ' :: l) = pystrip l := by
    simp [pystrip, List.dropWhile_cons]
  refine ⟨hdrop, ?_⟩
  intro args st hat hhead
  simp [runLines, step, hdrop, hat, hhead]

/-- Witness for the amended C9 at a concrete line. -/
theorem C9_strip_both_sides_witness :
    pystrip (' ' :: "@r1".toList) = pystrip "@r1".toList ∧
    runLines ⟨4, false, false, 'D'⟩ initState [' ' :: "@r1".toList] = ⟨[], [], none⟩ :=
  ⟨(C9_strip_both_sides "@r1".toList).1,
   (C9_strip_both_sides "@r1".toList).2 ⟨4, false, false, 'D'⟩ initState rfl (by decide)⟩

/-- C7: the record `@r1 / ACGTACGT / + / !!!!!!!!` with colorization and
line-skipping off renders at `columns = 4` as exactly the six lines
`@r1, ACGT, !!!!, ACGT, !!!!, +` and at `columns = 8` as exactly the four
lines `@r1, ACGTACGT, !!!!!!!!, +`. -/
theorem C7_scenario_output :
    (runLines ⟨4, false, false, 'D'⟩ initState
        ["@r1".toList, "ACGTACGT".toList, "+".toList, "!!!!!!!!".toList]).output =
      ["@r1".toList, "ACGT".toList, "!!!!".toList, "ACGT".toList, "!!!!".toList,
       "+".toList] ∧
    (runLines ⟨8, false, false, 'D'⟩ initState
        ["@r1".toList, "ACGTACGT".toList, "+".toList, "!!!!!!!!".toList]).output =
      ["@r1".toList, "ACGTACGT".toList, "!!!!!!!!".toList, "+".toList] := by
  decide

/-- C10: a `+` separator immediately after the header followed by an empty
line makes the assembler emit a record with empty sequence and empty quality,
and the renderer outputs exactly the header line followed by the separator
line, with no error. -/
theorem C10_empty_record (args : Args) (h p : List Char)
    (hh1 : pystrip h = h) (hh2 : h.head? = some '@')
    (hp1 : pystrip p = p) (hp2 : p.head? = some '+') :
    runLines args initState [h, p, []] = ⟨[h, p], [⟨h, [], p, []⟩], none⟩ := by
  have hnil : pystrip [] = [] := rfl
  simp [runLines, step, initState, hh1, hh2, hp1, hp2, hnil, print_fastq, wrap,
        wrapLoop, ansi_terminate_lines, render_pairs]

/-- Witness for C10 at a concrete header and separator. -/
theorem C10_empty_record_witness :
    runLines ⟨4, false, false, 'D'⟩ initState ["@r1".toList, "+".toList, []] =
      ⟨["@r1".toList, "+".toList], [⟨"@r1".toList, [], "+".toList, []⟩], none⟩ :=
  C10_empty_record ⟨4, false, false, 'D'⟩ "@r1".toList "+".toList
    (by decide) (by decide) (by decide) (by decide)

/-- C6: for an in-range quality character and a maximum strictly above `!`,
the bucket is `floor(8 * (ord c - 33) / (ord max - 33))` clamped to `[0,7]`
(so it always lies in `[0,7]`), it is monotone as the character increases,
and the colorized output wraps the character between the bucket's start
marker and the shared end marker. -/
theorem C6_colorize_bucket (c mq : Char) (h1 : '!' ≤ c) (h2 : c ≤ '~')
    (h3 : '!' < mq) (h4 : mq ≤ '~') :
    quality_bucket c mq ≤ 7 ∧
    (∀ c', c ≤ c' → c' ≤ '~' → quality_bucket c mq ≤ quality_bucket c' mq) ∧
    colorize_quality [c] mq =
      .ok (COLOR_BUCKETS.getD (quality_bucket c mq) [] ++ [c] ++ COLOR_END) := by
  refine ⟨?_, ?_, ?_⟩
  · exact le_trans (Nat.min_le_left _ _) (by decide)
  · intro c' hcc' _
    have hmono : c.toNat ≤ c'.toNat := hcc'
    exact min_le_min (le_refl _)
      (Nat.div_le_div_right (Nat.mul_le_mul_left _ (by omega)))
  · have hguard : ¬(c < '!' ∨ c > '~') := by
      push_neg
      exact ⟨h1, h2⟩
    have hmq : 33 < mq.toNat := h3
    simp [colorize_quality, colorize_char, hguard, Nat.ne_of_gt hmq]

/-- Witness for C6 at a concrete character and maximum. -/
theorem C6_colorize_bucket_witness :
    quality_bucket '5' 'D' ≤ 7 ∧
    quality_bucket '5' 'D' ≤ quality_bucket '9' 'D' ∧
    colorize_quality ['5'] 'D' =
      .ok (COLOR_BUCKETS.getD (quality_bucket '5' 'D') [] ++ ['5'] ++ COLOR_END) :=
  ⟨(C6_colorize_bucket '5' 'D' (by decide) (by decide) (by decide) (by decide)).1,
   (C6_colorize_bucket '5' 'D' (by decide) (by decide) (by decide) (by decide)).2.1
     '9' (by decide) (by decide),
   (C6_colorize_bucket '5' 'D' (by decide) (by decide) (by decide) (by decide)).2.2⟩

/-- C2: in the quality-accumulating state (header and separator both stored),
a quality line that pushes the running quality length strictly beyond the
running sequence length aborts the stream with an error carrying both
lengths and emits nothing; a line that leaves it strictly below keeps
accumulating quality without emitting; and no line processed while the
separator is still unset (header and sequence phases) emits any output, so
nothing of the record — not even its header — has been printed before the
abort. -/
theorem C2_quality_overrun (args : Args) (st : AsmState) (line h p : List Char)
    (hh : st.at_line = some h) (hp : st.plus_line = some p) :
    (st.quality_len + line.length > st.sequence_len →
      step args st line =
        ⟨[], none,
         .error (.lengthMismatch (st.quality_len + line.length) st.sequence_len)⟩) ∧
    (st.quality_len + line.length < st.sequence_len →
      step args st line =
        ⟨[], none, .ok { st with quality := st.quality ++ [line],
                                 quality_len := st.quality_len + line.length }⟩) ∧
    (∀ (st2 : AsmState) (l2 : List Char), st2.plus_line = none →
      (step args st2 l2).output = []) := by
  refine ⟨?_, ?_, ?_⟩
  · intro hgt
    have hne : ¬(st.quality_len + line.length = st.sequence_len) := by omega
    simp [step, hh, hp, hne, hgt]
  · intro hlt
    have hne : ¬(st.quality_len + line.length = st.sequence_len) := by omega
    have hngt : ¬(st.quality_len + line.length > st.sequence_len) := by omega
    simp [step, hh, hp, hne, hngt]
  · intro st2 l2 hp2
    rcases hat2 : st2.at_line with _ | h2
    · by_cases hhd : l2.head? = some '@' <;> simp [step, hat2, hhd]
    · rcases hcl : colorless_len l2 with _ | n <;>
        by_cases hhd : l2.head? = some '+' <;>
          simp [step, hat2, hp2, hhd, hcl]

/-- Witness for C2: a state with 4 content characters of sequence receiving a
5-character quality line aborts with both lengths and no output. -/
theorem C2_quality_overrun_witness :
    step ⟨4, false, false, 'D'⟩
        ⟨some "@r1".toList, some "+".toList, ["ACGT".toList], [], 0, 4⟩
        "!!!!!".toList =
      ⟨[], none, .error (.lengthMismatch (0 + ("!!!!!".toList).length) 4)⟩ :=
  (C2_quality_overrun ⟨4, false, false, 'D'⟩
      ⟨some "@r1".toList, some "+".toList, ["ACGT".toList], [], 0, 4⟩
      "!!!!!".toList "@r1".toList "+".toList rfl rfl).1 (by decide)

/-- The assembler invariant: the running sequence counter is the content
length of the buffered sequence lines and the running quality counter is the
raw length of the buffered quality lines. -/
def SeqInv (st : AsmState) : Prop :=
  st.sequence_len = (ansistrip st.sequence.flatten).length ∧
  st.quality_len = st.quality.flatten.length

theorem seqInv_init : SeqInv initState := by
  simp [SeqInv, initState, ansistrip]

/-- One loop iteration emits only records whose sequence content length
equals their raw quality length, and it preserves the counter invariant. -/
theorem step_emitted_ok (args : Args) (st : AsmState) (line : List Char)
    (hinv : SeqInv st) :
    (∀ r, (step args st line).emitted = some r →
        (ansistrip r.sequence).length = r.quality.length) ∧
    (∀ st', (step args st line).result = .ok st' → SeqInv st') := by
  obtain ⟨hs, hq⟩ := hinv
  rcases hat : st.at_line with _ | h
  · constructor
    · intro r hr
      by_cases hhd : line.head? = some '@' <;> simp [step, hat, hhd] at hr
    · intro st' hst'
      by_cases hhd : line.head? = some '@' <;> simp [step, hat, hhd] at hst'
      rw [← hst']
      exact ⟨hs, hq⟩
  · rcases hp : st.plus_line with _ | p
    · constructor
      · intro r hr
        by_cases hhd : line.head? = some '+'
        · simp [step, hat, hp, hhd] at hr
        · rcases hcl : colorless_len line with _ | n <;>
            simp [step, hat, hp, hhd, hcl] at hr
      · intro st' hst'
        by_cases hhd : line.head? = some '+'
        · simp [step, hat, hp, hhd] at hst'
          rw [← hst']
          exact ⟨hs, hq⟩
        · rcases hcl : colorless_len line with _ | n <;>
            simp [step, hat, hp, hhd, hcl] at hst'
          rw [← hst']
          refine ⟨?_, hq⟩
          have hn := colorless_len_some hcl
          simp only [ansistrip] at hs hn ⊢
          simp [List.flatten_append, List.filter_append, hs, hn]
    · by_cases heq : st.quality_len + line.length = st.sequence_len
      · constructor
        · intro r hr
          simp only [step, hat, hp, if_pos heq, Option.some.injEq] at hr
          subst hr
          show (ansistrip st.sequence.flatten).length =
            ((st.quality ++ [line]).flatten).length
          rw [← hs, List.flatten_append]
          simp only [List.flatten_cons, List.flatten_nil, List.append_nil,
            List.length_append, ← hq]
          omega
        · intro st' hst'
          simp only [step, hat, hp, if_pos heq] at hst'
          rcases hpr : (print_fastq args h st.sequence.flatten p
              ((st.quality ++ [line]).flatten)).2 with _ | e
          · rw [hpr] at hst'
            simp at hst'
            rw [← hst']
            exact seqInv_init
          · rw [hpr] at hst'
            simp at hst'
      · constructor
        · intro r hr
          by_cases hgt : st.quality_len + line.length > st.sequence_len <;>
            simp [step, hat, hp, heq, hgt] at hr
        · intro st' hst'
          by_cases hgt : st.quality_len + line.length > st.sequence_len <;>
            simp [step, hat, hp, heq, hgt] at hst'
          rw [← hst']
          refine ⟨hs, ?_⟩
          simp [List.flatten_append, hq]

/-- Every record collected over a whole run satisfies the content-length /
quality-length equality, given the counter invariant at the start. -/
theorem runLines_records_ok (args : Args) :
    ∀ (lines : List (List Char)) (st : AsmState), SeqInv st →
      ∀ r ∈ (runLines args st lines).records,
        (ansistrip r.sequence).length = r.quality.length := by
  intro lines
  induction lines with
  | nil =>
    intro st _ r hr
    simp [runLines] at hr
  | cons l ls ih =>
    intro st hinv r hr
    obtain ⟨hem, hok⟩ := step_emitted_ok args st (pystrip l) hinv
    simp only [runLines] at hr
    rcases hres : (step args st (pystrip l)).result with e | st' <;>
      rw [hres] at hr <;> simp at hr
    · exact hem r hr
    · rcases hr with hr | hr
      · exact hem r hr
      · exact ih st' (hok st' hres) r hr

/-- C1: every record the assembler hands to the renderer whose sequence
consists only of uppercase letters satisfies
`len(record.sequence) = len(record.quality)`: a record is closed exactly when
the raw quality length equals the sequence content length. -/
theorem C1_emitted_record_lengths (args : Args) (lines : List (List Char))
    (r : FastqRecord) (hr : r ∈ (runLines args initState lines).records)
    (hup : ∀ c ∈ r.sequence, c.isUpper) :
    r.sequence.length = r.quality.length := by
  have h := runLines_records_ok args lines initState seqInv_init r hr
  have hfix : ansistrip r.sequence = r.sequence :=
    List.filter_eq_self.mpr (fun c hc => hup c hc)
  rwa [hfix] at h

/-- Witness for C1 on the record emitted from a concrete stream. -/
theorem C1_emitted_record_lengths_witness :
    (FastqRecord.mk "@r1".toList "ACGTACGT".toList "+".toList
        "!!!!!!!!".toList).sequence.length =
    (FastqRecord.mk "@r1".toList "ACGTACGT".toList "+".toList
        "!!!!!!!!".toList).quality.length :=
  C1_emitted_record_lengths ⟨4, false, false, 'D'⟩
    ["@r1".toList, "ACGTACGT".toList, "+".toList, "!!!!!!!!".toList]
    (FastqRecord.mk "@r1".toList "ACGTACGT".toList "+".toList "!!!!!!!!".toList)
    (by decide) (by decide)

/-- C8: a sequence split across the two lines `ACGT` and `ACGT` followed by a
separator and one 8-character quality line is assembled into exactly the same
record — and therefore rendered identically — as the single sequence line
`ACGTACGT`: the assembler accumulates all sequence lines and their content
lengths before closing the record. -/
theorem C8_multiline_sequence_equiv (args : Args) (h q : List Char)
    (hh1 : pystrip h = h) (hh2 : h.head? = some '@')
    (hq1 : pystrip q = q) (hq2 : q.length = 8) :
    runLines args initState [h, "ACGT".toList, "ACGT".toList, "+".toList, q] =
      runLines args initState [h, "ACGTACGT".toList, "+".toList, q] := by
  have hA : pystrip ['A', 'C', 'G', 'T'] = ['A', 'C', 'G', 'T'] := by decide
  have hAA : pystrip ['A', 'C', 'G', 'T', 'A', 'C', 'G', 'T'] =
      ['A', 'C', 'G', 'T', 'A', 'C', 'G', 'T'] := by decide
  have hP : pystrip ['+'] = ['+'] := by decide
  have hclA : colorless_len ['A', 'C', 'G', 'T'] = some 4 := by decide
  have hclAA : colorless_len ['A', 'C', 'G', 'T', 'A', 'C', 'G', 'T'] = some 8 := by
    decide
  simp [runLines, step, initState, hh1, hh2, hq1, hq2, hA, hAA, hP, hclA, hclAA]

/-- Witness for C8 at a concrete header and quality line. -/
theorem C8_multiline_sequence_equiv_witness :
    runLines ⟨4, false, false, 'D'⟩ initState
        ["@r1".toList, "ACGT".toList, "ACGT".toList, "+".toList,
         "!!!!!!!!".toList] =
      runLines ⟨4, false, false, 'D'⟩ initState
        ["@r1".toList, "ACGTACGT".toList, "+".toList, "!!!!!!!!".toList] :=
  C8_multiline_sequence_equiv ⟨4, false, false, 'D'⟩ "@r1".toList
    "!!!!!!!!".toList (by decide) (by decide) (by decide) (by decide)

end FastqViewer
